import Mathlib

/-!
Verification of the skrobak scraping orchestrator core: the cascade
orchestrator (`scrape`), the retry wrapper (`withRetry`), the backoff
calculator (`calculateRetryDelay`), the pool selector (`getRandomFrom`)
and the mechanism executors, shallowly embedded from
`src/utils/strategy.ts` and `src/index.ts`.

Effectful TypeScript code is embedded as pure Lean functions over an
explicit oracle describing what the external world does on each
invocation, and the observer hooks are recorded as an event trace.
-/

namespace Skrobak

/-- Modelled from the spec: the repository's `locales.json` is not under
`src/`; the code only needs its entries to be distinct message strings, so
each key is modelled as its own name. -/
structure Locales where
  noStrategiesProvided : String := "noStrategiesProvided"
  allStrategiesFailed : String := "allStrategiesFailed"
  noResponseReceived : String := "noResponseReceived"
  responseValidationFailed : String := "responseValidationFailed"
  customFetchNotProvided : String := "customFetchNotProvided"
  customFetchNoResponse : String := "customFetchNoResponse"

def locales : Locales := {}

/-- Modelled from the spec: `types/error.ts` is not under `src/`; the spec
describes `HttpError` as "a special failure kind carrying an HTTP-like
status code". Every other thrown error is a plain `Error` with a message,
modelled by `generic`. -/
inductive ScrapeError where
  | http (message : String) (statusCode : Nat)
  | generic (message : String)
deriving Repr, DecidableEq

/-- `RetryType` in the source is the string union
`'exponential' | 'linear' | 'constant'`; the runtime value is a string and
`calculateRetryDelay` has a defensive `default` branch, so the embedding
keeps the string. -/
abbrev RetryType := String

/-- `calculateRetryDelay` from `src/utils/strategy.ts`: switch on the
retry type with a defensive exponential default. Delays are JS numbers;
the embedding uses `ℚ` so fractional base delays are representable. -/
def calculateRetryDelay (attempt : Nat) (baseDelay : ℚ) (retryType : RetryType) : ℚ :=
  if retryType = "exponential" then baseDelay * 2 ^ attempt
  else if retryType = "linear" then baseDelay * (attempt + 1)
  else if retryType = "constant" then baseDelay
  else baseDelay * 2 ^ attempt

/-- `getRandomFrom` from `src/utils/strategy.ts`:
`items[Math.floor(Math.random() * items.length)]`, with `undefined` or an
empty array yielding `undefined`. The random draw `Math.random()` is
passed in explicitly as `r`, with its JS guarantee `0 ≤ r < 1` stated as a
hypothesis on the theorems. -/
def getRandomFrom {T : Type} (items : Option (List T)) (r : ℚ) : Option T :=
  match items with
  | none => none
  | some l =>
      if l.length = 0 then none
      else l.get? (Int.toNat ⌊r * l.length⌋)

/-- `RetryConfig` from `src/types/options.ts` (`count?`, `delay?`,
`type?`); the runtime in `withRetry` additionally reads an optional
`statusCodes` field, so the embedding carries it. -/
structure RetryConfig where
  count : Option Nat := none
  delay : Option ℚ := none
  type : Option RetryType := none
  statusCodes : Option (List Nat) := none
deriving Repr, DecidableEq

/-- Modelled from the spec: `defaults.json` is not under `src/`; the code
reads `defaults.retry.delay`, `defaults.retry.type` and
`defaults.retry.statusCodes` as fallbacks, so they are carried as an
explicit parameter ("exact membership is configuration, not hardcoded
policy"). -/
structure RetryDefaults where
  delay : ℚ
  type : RetryType
  statusCodes : List Nat
deriving Repr, DecidableEq

/-- `const retriableStatusCodes = retryConfig.statusCodes ?? defaults.retry.statusCodes` -/
def retriableCodes (cfg : RetryConfig) (defaults : RetryDefaults) : List Nat :=
  cfg.statusCodes.getD defaults.statusCodes

/-- The check performed in `withRetry`'s catch clause:
`error instanceof HttpError && !retriableStatusCodes.includes(error.statusCode)`. -/
def isNonRetriable (e : ScrapeError) (codes : List Nat) : Bool :=
  match e with
  | .http _ statusCode => !codes.contains statusCode
  | .generic _ => false

/-- One observer-hook invocation recorded by the retry wrapper: the
`onRetryAttempt` and `onRetryExhausted` hook payloads from
`src/types/hooks.ts`. -/
inductive RetryEvent where
  | retryAttempt (error : ScrapeError) (attempt : Nat) (maxAttempts : Nat)
      (nextRetryDelay : ℚ) (retryConfig : RetryConfig)
  | retryExhausted (error : ScrapeError) (totalAttempts : Nat) (retryConfig : RetryConfig)
deriving Repr, DecidableEq

/-- Whether an event is an `onRetryExhausted` invocation. -/
def RetryEvent.isExhausted : RetryEvent → Bool
  | .retryExhausted _ _ _ => true
  | _ => false

/-- Observable outcome of one `withRetry` call: the value returned or
error thrown, how many times the wrapped action was invoked, and the
hook invocations in chronological order. The wrapped action is supplied
as an oracle `fn : Nat → Except ScrapeError T` giving the outcome of its
k-th (0-indexed) invocation; invocations are strictly sequential. -/
structure RetryOutcome (T : Type) where
  result : Except ScrapeError T
  invocations : Nat
  events : List RetryEvent
deriving Repr

/-- The `for (let attempt = 0; attempt <= retryConfig.count; attempt++)`
loop of `withRetry` in `src/utils/strategy.ts`. `remaining` is
`count - attempt`, the number of loop iterations still allowed after the
current one; the two are passed separately so the recursion is structural.
On a failure that is a non-retriable `HttpError` the error is re-thrown at
once (no further invocation, no exhaustion hook); after the final allowed
failure the `onRetryExhausted` hook fires with the last error and
`count + 1` total attempts and the last error is re-thrown. -/
def withRetryGo {T : Type} (fn : Nat → Except ScrapeError T) (cfg : RetryConfig)
    (count : Nat) (delay : ℚ) (rtype : RetryType) (codes : List Nat) :
    Nat → Nat → RetryOutcome T
  | attempt, 0 =>
    match fn attempt with
    | .ok v => ⟨.ok v, attempt + 1, []⟩
    | .error e =>
      if isNonRetriable e codes then ⟨.error e, attempt + 1, []⟩
      else ⟨.error e, attempt + 1, [.retryExhausted e (count + 1) cfg]⟩
  | attempt, r + 1 =>
    match fn attempt with
    | .ok v => ⟨.ok v, attempt + 1, []⟩
    | .error e =>
      if isNonRetriable e codes then ⟨.error e, attempt + 1, []⟩
      else
        ⟨(withRetryGo fn cfg count delay rtype codes (attempt + 1) r).result,
          (withRetryGo fn cfg count delay rtype codes (attempt + 1) r).invocations,
          .retryAttempt e (attempt + 1) (count + 1)
            (calculateRetryDelay attempt delay rtype) cfg ::
            (withRetryGo fn cfg count delay rtype codes (attempt + 1) r).events⟩

/-- `withRetry` from `src/utils/strategy.ts`. `if (!retryConfig?.count)
return fn()`: with no config, no count, or `count = 0` the action runs
exactly once and its outcome is propagated unchanged (no hooks).
Otherwise the retry loop runs with the config's delay/type/statusCodes,
each falling back to the defaults. -/
def withRetry {T : Type} (fn : Nat → Except ScrapeError T)
    (retryConfig : Option RetryConfig) (defaults : RetryDefaults) : RetryOutcome T :=
  match retryConfig with
  | none => ⟨fn 0, 1, []⟩
  | some cfg =>
    match cfg.count with
    | none => ⟨fn 0, 1, []⟩
    | some 0 => ⟨fn 0, 1, []⟩
    | some (n + 1) =>
      withRetryGo fn cfg (n + 1) (cfg.delay.getD defaults.delay)
        (cfg.type.getD defaults.type) (retriableCodes cfg defaults) 0 (n + 1)

/-- A JavaScript runtime value returned by a caller-supplied custom
retrieval function; `null` and `undefined` are distinguished from the
falsy primitives `false`, `0` and `""`. -/
inductive JsValue where
  | null
  | undefined
  | bool (b : Bool)
  | num (q : ℚ)
  | str (s : String)
deriving Repr, DecidableEq

/-- `executeCustomMechanism` from `src/utils/strategy.ts`. `customFn` is
the oracle for `config.custom?.fn`: `none` when no function is configured,
otherwise the outcome of calling it (`.error` if the function itself
throws, `.ok v` if it resolves with `v`). Returns the `response` payload
of the `{ mechanism: 'custom', response }` result. -/
def executeCustomMechanism (customFn : Option (Except ScrapeError JsValue))
    (validate : Option (JsValue → Bool)) : Except ScrapeError JsValue :=
  match customFn with
  | none => .error (.generic locales.customFetchNotProvided)
  | some (.error e) => .error e
  | some (.ok response) =>
    if response = .null ∨ response = .undefined then
      .error (.generic locales.customFetchNoResponse)
    else
      match validate with
      | some p =>
        if p response then .ok response
        else .error (.generic locales.responseValidationFailed)
      | none => .ok response

/-- The observable part of a transport `Response` used by the core. -/
structure FetchResponse where
  status : Nat
  body : String
deriving Repr, DecidableEq

/-- Oracle for one transport call in `executeFetchMechanism`:
`.error` if `fetch` rejects, `.ok none` if it yields no response,
`.ok (some r)` if it yields response `r`. -/
structure FetchEnv where
  response : Except ScrapeError (Option FetchResponse)
deriving Repr

/-- `executeFetchMechanism` from `src/utils/strategy.ts`: one transport
call, the `if (!response) throw noResponseReceived` guard, then the
optional validator (a `false` return is a distinct validation failure).
The lazily parsed `$` view is not modelled (no claim concerns it). -/
def executeFetchMechanism (env : FetchEnv)
    (validate : Option (FetchResponse → Bool)) : Except ScrapeError FetchResponse :=
  match env.response with
  | .error e => .error e
  | .ok none => .error (.generic locales.noResponseReceived)
  | .ok (some response) =>
    match validate with
    | some p =>
      if p response then .ok response
      else .error (.generic locales.responseValidationFailed)
    | none => .ok response

/-- A page handle opened inside a browsing context. -/
structure BrowserPage where
  id : Nat
deriving Repr, DecidableEq

/-- The observable part of a Playwright navigation response. -/
structure BrowserResponse where
  status : Nat
deriving Repr, DecidableEq

/-- The state of the browsing context opened by the browser executor. -/
structure BrowserContextState where
  closed : Bool
deriving Repr, DecidableEq

/-- `context.close()`. -/
def closeContext : BrowserContextState → BrowserContextState :=
  fun _ => ⟨true⟩

/-- `ScrapeResultBrowser` from `src/types/result.ts`: a live page, the
navigation response, and the `cleanup` obligation (a closure over the
opened context). -/
structure ScrapeResultBrowser where
  page : BrowserPage
  response : BrowserResponse
  cleanup : BrowserContextState → BrowserContextState

/-- Oracle for the external browser collaborators used by one
`executeBrowserMechanism` call, covering the steps after the context is
opened: `createPage` may throw, `page.goto` may throw or yield no
response. -/
structure BrowserEnv where
  createPage : Except ScrapeError BrowserPage
  goto : Except ScrapeError (Option BrowserResponse)

/-- Result of one browser-mechanism execution, together with whether the
executor itself closed the opened context (the `catch` block's
`await context.close()`). -/
structure BrowserOutcome where
  result : Except ScrapeError ScrapeResultBrowser
  contextClosedByExecutor : Bool

/-- `executeBrowserMechanism` from `src/utils/strategy.ts`: after the
context is opened, create a page, navigate, guard against a missing
navigation response, run the optional validator; any failure in that
`try` block closes the context before the error propagates; on success
the result carries `cleanup: async () => await context.close()` and the
executor does not close the context itself. -/
def executeBrowserMechanism (env : BrowserEnv)
    (validate : Option (BrowserResponse → Bool)) : BrowserOutcome :=
  match env.createPage with
  | .error e => ⟨.error e, true⟩
  | .ok page =>
    match env.goto with
    | .error e => ⟨.error e, true⟩
    | .ok none => ⟨.error (.generic locales.noResponseReceived), true⟩
    | .ok (some response) =>
      match validate with
      | some p =>
        if p response then
          ⟨.ok ⟨page, response, closeContext⟩, false⟩
        else
          ⟨.error (.generic locales.responseValidationFailed), true⟩
      | none => ⟨.ok ⟨page, response, closeContext⟩, false⟩

/-- `StrategyMechanism` from `src/types/index.ts`. -/
inductive StrategyMechanism where
  | fetch
  | browser
  | custom
deriving Repr, DecidableEq

/-- A tagged `ScrapeResult` from `src/types/result.ts`: the tag always
matches the mechanism that produced the payload. -/
inductive MechResult where
  | fetch (response : FetchResponse)
  | browser (res : ScrapeResultBrowser)
  | custom (response : JsValue)

/-- The external world and configured validators for one
`executeMechanism` call. The single `validateResponse` callback of the
source discriminates on the mechanism tag of its context argument; it is
carried here as its three components. -/
structure MechEnv where
  fetchEnv : FetchEnv
  browserEnv : BrowserEnv
  customFn : Option (Except ScrapeError JsValue)
  validateFetch : Option (FetchResponse → Bool)
  validateBrowser : Option (BrowserResponse → Bool)
  validateCustom : Option (JsValue → Bool)

/-- `executeMechanism` from `src/utils/strategy.ts`: dispatch on the
strategy's mechanism, record the response status for fetch
(`result.response.status`) and browser (`result.response.status()`) but
not for custom, then
`if (status !== undefined && (status < 200 || status >= 300)) throw new
HttpError(\x7bHTTP error $\x7bstatus\x7d\x7d, status)`. -/
def executeMechanism (env : MechEnv) (mech : StrategyMechanism) :
    Except ScrapeError MechResult :=
  match mech with
  | .fetch =>
    match executeFetchMechanism env.fetchEnv env.validateFetch with
    | .error e => .error e
    | .ok r =>
      if r.status < 200 ∨ 300 ≤ r.status then
        .error (.http ("HTTP error " ++ toString r.status) r.status)
      else .ok (.fetch r)
  | .browser =>
    match (executeBrowserMechanism env.browserEnv env.validateBrowser).result with
    | .error e => .error e
    | .ok r =>
      if r.response.status < 200 ∨ 300 ≤ r.response.status then
        .error (.http ("HTTP error " ++ toString r.response.status) r.response.status)
      else .ok (.browser r)
  | .custom =>
    match executeCustomMechanism env.customFn env.validateCustom with
    | .error e => .error e
    | .ok r => .ok (.custom r)

/-- `executeStrategy` from `src/utils/strategy.ts`: the mechanism executor
run under the retry wrapper. The derived `RequestOptions` (random proxy /
user agent / viewport, headers, timeout) only influence the external
collaborators and are absorbed into the per-attempt oracle `envs`. -/
def executeStrategy (envs : Nat → MechEnv) (mech : StrategyMechanism)
    (retries : Option RetryConfig) (defaults : RetryDefaults) :
    RetryOutcome MechResult :=
  withRetry (fun attempt => executeMechanism (envs attempt) mech) retries defaults

/-- `ScrapeStrategy` from `src/types/index.ts`. -/
structure ScrapeStrategy where
  mechanism : StrategyMechanism
  useProxy : Option Bool := none
deriving Repr, DecidableEq

/-- The default strategy value used for safe list indexing in statements. -/
def defaultStrategy : ScrapeStrategy := ⟨.fetch, none⟩

/-- One observer-hook invocation recorded by the cascade orchestrator:
the `onStrategyFailed` and `onAllStrategiesFailed` hook payloads from
`src/types/hooks.ts`. -/
inductive ScrapeEvent where
  | strategyFailed (error : ScrapeError) (strategy : ScrapeStrategy)
      (strategyIndex : Nat) (totalStrategies : Nat)
  | allStrategiesFailed (lastError : ScrapeError)
      (strategies : List ScrapeStrategy) (totalAttempts : Nat)
deriving Repr, DecidableEq

/-- Observable outcome of one `scrape` call: the returned value or thrown
error, the number of strategy executions performed (each such execution
is what invokes a mechanism executor), and the hook invocations in
chronological order. -/
structure ScrapeOutcome (R : Type) where
  result : Except ScrapeError R
  executorCalls : Nat
  events : List ScrapeEvent
deriving Repr

/-- The `for (const [index, strategy] of strategies.entries())` loop of
`scrape` in `src/index.ts`, walking the suffix of `all` that starts at
index `i`. `exec i` is the oracle for the outcome of
`executeStrategy(url, config, strategies[i])`. A success returns
immediately; a failure fires `onStrategyFailed`, and at the last index
additionally fires `onAllStrategiesFailed` and re-throws the last error.
The `[]` case is the dead `throw new Error(locales.allStrategiesFailed)`
after the loop. -/
def scrapeLoop {R : Type} (exec : Nat → Except ScrapeError R)
    (all : List ScrapeStrategy) : Nat → List ScrapeStrategy → ScrapeOutcome R
  | _, [] => ⟨.error (.generic locales.allStrategiesFailed), 0, []⟩
  | i, s :: rest =>
    match exec i with
    | .ok v => ⟨.ok v, 1, []⟩
    | .error e =>
      if i = all.length - 1 then
        ⟨.error e, 1,
          [.strategyFailed e s i all.length,
           .allStrategiesFailed e all all.length]⟩
      else
        let restOut := scrapeLoop exec all (i + 1) rest
        ⟨restOut.result, restOut.executorCalls + 1,
          .strategyFailed e s i all.length :: restOut.events⟩

/-- `scrape` from `src/index.ts`: `if (!strategies?.length) throw new
Error(locales.noStrategiesProvided)`, otherwise the cascade loop over the
declared list. -/
def scrape {R : Type} (exec : Nat → Except ScrapeError R)
    (strategies : Option (List ScrapeStrategy)) : ScrapeOutcome R :=
  match strategies with
  | none => ⟨.error (.generic locales.noStrategiesProvided), 0, []⟩
  | some all =>
    if all.length = 0 then ⟨.error (.generic locales.noStrategiesProvided), 0, []⟩
    else scrapeLoop exec all 0 all

/-- Concrete defaults standing in for `defaults.json` in evaluations. -/
def sampleDefaults : RetryDefaults := ⟨1000, "exponential", [500, 502, 503]⟩

/-- A retry policy with one retry, constant backoff of 5ms, and `[500]`
as the retriable-status set. -/
def oneRetryCfg : RetryConfig :=
  { count := some 1, delay := some 5, type := some "constant", statusCodes := some [500] }

/-- A wrapped action that fails with a plain error on its first
invocation and with a non-retriable `HttpError 404` on every later one. -/
def mixedFailFn : Nat → Except ScrapeError Unit := fun k =>
  if k = 0 then .error (.generic "boom")
  else .error (.http "HTTP error 404" 404)

/-- A wrapped action that fails once with a plain error, then succeeds. -/
def succeedSecondFn : Nat → Except ScrapeError Nat := fun k =>
  if k = 0 then .error (.generic "first failure") else .ok 42

/-- A mechanism environment whose transport and navigation yield a 404
response and whose custom function resolves with the falsy value
`false`; no validators configured. -/
def status404Env : MechEnv :=
  { fetchEnv := ⟨.ok (some ⟨404, "not found"⟩)⟩
    browserEnv := ⟨.ok ⟨0⟩, .ok (some ⟨404⟩)⟩
    customFn := some (.ok (.bool false))
    validateFetch := none
    validateBrowser := none
    validateCustom := none }

/-- A wrapped action that always fails with a 404 `HttpError`. -/
def alwaysHttp404 : Nat → Except ScrapeError Unit :=
  fun _ => .error (.http "HTTP error 404" 404)

/-- A mechanism environment in which no custom retrieval function is
configured. -/
def noCustomFnEnv : MechEnv :=
  { fetchEnv := ⟨.ok none⟩
    browserEnv := ⟨.ok ⟨0⟩, .ok none⟩
    customFn := none
    validateFetch := none
    validateBrowser := none
    validateCustom := none }

end Skrobak

namespace Skrobak

/-- C3: the backoff calculator returns `base * 2^attempt` for
`exponential`, `base * (attempt+1)` for `linear`, `base` for `constant`,
and falls back to the exponential formula on any unrecognized policy
string; as a Lean function it is pure and deterministic by construction. -/
theorem calculateRetryDelay_spec (a : Nat) (b : ℚ) :
    calculateRetryDelay a b "exponential" = b * 2 ^ a ∧
    calculateRetryDelay a b "linear" = b * (a + 1) ∧
    calculateRetryDelay a b "constant" = b ∧
    ∀ s : RetryType, s ≠ "exponential" → s ≠ "linear" → s ≠ "constant" →
      calculateRetryDelay a b s = b * 2 ^ a := by
  refine ⟨rfl, rfl, rfl, ?_⟩
  intro s h1 h2 h3
  simp [calculateRetryDelay, h1, h2, h3]

/-- Witness for C3: the unrecognized-policy branch evaluated at a concrete
input, `calculateRetryDelay 2 1000 "bogus" = 4000`. -/
theorem calculateRetryDelay_spec_witness :
    calculateRetryDelay 2 1000 "bogus" = 4000 := by
  have h := (calculateRetryDelay_spec 2 1000).2.2.2 "bogus"
    (by decide) (by decide) (by decide)
  rw [h]; norm_num

/-- C9: the pool selector yields `none` on an absent or empty collection,
yields the single element of a singleton, and on any non-empty collection
yields a member of that collection, for every random draw `0 ≤ r < 1`. -/
theorem getRandomFrom_spec {T : Type} (r : ℚ) (h0 : 0 ≤ r) (h1 : r < 1) :
    getRandomFrom (T := T) none r = none ∧
    getRandomFrom (some ([] : List T)) r = none ∧
    (∀ x : T, getRandomFrom (some [x]) r = some x) ∧
    ∀ l : List T, l ≠ [] → ∃ x ∈ l, getRandomFrom (some l) r = some x := by
  have hfloor0 : ⌊r⌋ = 0 := Int.floor_eq_zero_iff.mpr ⟨h0, h1⟩
  refine ⟨rfl, rfl, ?_, ?_⟩
  · intro x
    simp [getRandomFrom, hfloor0]
  · intro l hl
    have hpos : 0 < l.length := List.length_pos.mpr hl
    have hlen : (0 : ℚ) < (l.length : ℚ) := by exact_mod_cast hpos
    have hmul : r * (l.length : ℚ) < ((l.length : ℤ) : ℚ) := by
      push_cast
      calc r * (l.length : ℚ) < 1 * (l.length : ℚ) :=
            mul_lt_mul_of_pos_right h1 hlen
        _ = (l.length : ℚ) := one_mul _
    have hfl : ⌊r * (l.length : ℚ)⌋ < (l.length : ℤ) := Int.floor_lt.mpr hmul
    have hidx : Int.toNat ⌊r * (l.length : ℚ)⌋ < l.length := by omega
    refine ⟨l.get ⟨_, hidx⟩, List.get_mem l _ _, ?_⟩
    show (if l.length = 0 then none else l.get? (Int.toNat ⌊r * (l.length : ℚ)⌋)) =
      some (l.get ⟨_, hidx⟩)
    rw [if_neg (by omega)]
    exact List.get?_eq_get hidx

/-- Witness for C9: over the pool `[3, 7]` with random draw `1/2`, the
selector yields a member of the pool. -/
theorem getRandomFrom_spec_witness :
    ∃ x ∈ [3, 7], getRandomFrom (some [3, 7]) (1 / 2 : ℚ) = some x :=
  (getRandomFrom_spec (T := Nat) (1 / 2) (by norm_num) (by norm_num)).2.2.2
    [3, 7] (by decide)

/-- The retry loop performs at most `remaining + 1` further invocations
beyond the first `attempt` ones. -/
theorem withRetryGo_invocations_le {T : Type} (fn : Nat → Except ScrapeError T)
    (cfg : RetryConfig) (count : Nat) (delay : ℚ) (rtype : RetryType)
    (codes : List Nat) :
    ∀ remaining attempt,
      (withRetryGo fn cfg count delay rtype codes attempt remaining).invocations ≤
        attempt + remaining + 1 := by
  intro remaining
  induction remaining with
  | zero =>
    intro attempt
    cases h : fn attempt with
    | ok v =>
      simp only [withRetryGo, h]
      omega
    | error e =>
      by_cases hnr : isNonRetriable e codes = true
      · simp only [withRetryGo, h, hnr, if_true]
        omega
      · simp only [withRetryGo, h]
        rw [if_neg hnr]
  | succ r ih =>
    intro attempt
    cases h : fn attempt with
    | ok v =>
      simp only [withRetryGo, h]
      omega
    | error e =>
      by_cases hnr : isNonRetriable e codes = true
      · simp only [withRetryGo, h, hnr, if_true]
        omega
      · simp only [withRetryGo, h]
        rw [if_neg hnr]
        have h2 := ih (attempt + 1)
        show (withRetryGo fn cfg count delay rtype codes (attempt + 1) r).invocations ≤
          attempt + (r + 1) + 1
        omega

/-- If the first `k - attempt` pending invocations fail retriably and the
`k`-th succeeds, the loop stops right there with that success. -/
theorem withRetryGo_success {T : Type} (fn : Nat → Except ScrapeError T)
    (cfg : RetryConfig) (count : Nat) (delay : ℚ) (rtype : RetryType)
    (codes : List Nat) (k : Nat) (v : T)
    (hok : fn k = .ok v)
    (hfail : ∀ j < k, ∃ e, fn j = .error e ∧ isNonRetriable e codes = false) :
    ∀ remaining attempt, attempt ≤ k → k ≤ attempt + remaining →
      (withRetryGo fn cfg count delay rtype codes attempt remaining).result = .ok v ∧
      (withRetryGo fn cfg count delay rtype codes attempt remaining).invocations =
        k + 1 := by
  intro remaining
  induction remaining with
  | zero =>
    intro attempt h1 h2
    have hak : attempt = k := by omega
    subst hak
    simp [withRetryGo, hok]
  | succ r ih =>
    intro attempt h1 h2
    rcases eq_or_lt_of_le h1 with heq | hlt
    · subst heq
      simp [withRetryGo, hok]
    · obtain ⟨e, he, hre⟩ := hfail attempt hlt
      have hrec := ih (attempt + 1) (by omega) (by omega)
      simp [withRetryGo, he, hre]
      exact hrec

/-- If every pending invocation fails retriably, the loop runs all of
them, fires one `onRetryAttempt` per non-final failure in order, then
fires `onRetryExhausted` with the final error and re-raises it. -/
theorem withRetryGo_exhaust {T : Type} (fn : Nat → Except ScrapeError T)
    (cfg : RetryConfig) (count : Nat) (delay : ℚ) (rtype : RetryType)
    (codes : List Nat) (err : Nat → ScrapeError) :
    ∀ remaining attempt,
      (∀ j, attempt ≤ j → j ≤ attempt + remaining →
        fn j = .error (err j) ∧ isNonRetriable (err j) codes = false) →
      withRetryGo fn cfg count delay rtype codes attempt remaining =
        ⟨.error (err (attempt + remaining)), attempt + remaining + 1,
          ((List.range' attempt remaining).map fun j =>
            .retryAttempt (err j) (j + 1) (count + 1)
              (calculateRetryDelay j delay rtype) cfg) ++
          [.retryExhausted (err (attempt + remaining)) (count + 1) cfg]⟩ := by
  intro remaining
  induction remaining with
  | zero =>
    intro attempt h
    obtain ⟨he, hre⟩ := h attempt le_rfl (by omega)
    simp [withRetryGo, he, hre]
  | succ r ih =>
    intro attempt h
    obtain ⟨he, hre⟩ := h attempt le_rfl (by omega)
    have hrec := ih (attempt + 1) (fun j hj1 hj2 => h j (by omega) (by omega))
    have harith : attempt + 1 + r = attempt + (r + 1) := by omega
    rw [harith] at hrec
    simp only [withRetryGo, he, hre, Bool.false_eq_true, if_false, hrec]
    refine congrArg₂ _ rfl ?_
    simp [List.range']

/-- If the first `k - attempt` pending invocations fail retriably and the
`k`-th fails with a non-retriable `HttpError`, the loop stops right
there, re-raising that error without any exhaustion event. -/
theorem withRetryGo_abort {T : Type} (fn : Nat → Except ScrapeError T)
    (cfg : RetryConfig) (count : Nat) (delay : ℚ) (rtype : RetryType)
    (codes : List Nat) (k : Nat) (m : String) (s : Nat)
    (hhttp : fn k = .error (.http m s)) (hs : codes.contains s = false)
    (hfail : ∀ j < k, ∃ e, fn j = .error e ∧ isNonRetriable e codes = false) :
    ∀ remaining attempt, attempt ≤ k → k ≤ attempt + remaining →
      (withRetryGo fn cfg count delay rtype codes attempt remaining).result =
        .error (.http m s) ∧
      (withRetryGo fn cfg count delay rtype codes attempt remaining).invocations =
        k + 1 ∧
      ((withRetryGo fn cfg count delay rtype codes attempt remaining).events.all
        fun ev => !ev.isExhausted) = true := by
  have hnr : isNonRetriable (ScrapeError.http m s) codes = true := by
    show (!codes.contains s) = true
    rw [hs]
    rfl
  intro remaining
  induction remaining with
  | zero =>
    intro attempt h1 h2
    have hak : attempt = k := by omega
    subst hak
    simp [withRetryGo, hhttp, hnr]
  | succ r ih =>
    intro attempt h1 h2
    rcases eq_or_lt_of_le h1 with heq | hlt
    · subst heq
      simp [withRetryGo, hhttp, hnr]
    · obtain ⟨e, he, hre⟩ := hfail attempt hlt
      have hrec := ih (attempt + 1) (by omega) (by omega)
      have hnr' : ¬ isNonRetriable e codes = true := by simp [hre]
      simp only [withRetryGo, he]
      rw [if_neg hnr']
      refine ⟨hrec.1, hrec.2.1, ?_⟩
      show (!RetryEvent.isExhausted _ &&
        ((withRetryGo fn cfg count delay rtype codes (attempt + 1) r).events.all
          fun ev => !ev.isExhausted)) = true
      rw [hrec.2.2]
      rfl

/-- With a positive retry count, `withRetry` is the retry loop started at
attempt 0 with the config's delay, type and status codes (each falling
back to the defaults). -/
theorem withRetry_count_pos {T : Type} (fn : Nat → Except ScrapeError T)
    (defaults : RetryDefaults) (cfg : RetryConfig) (m : Nat)
    (hcount : cfg.count = some (m + 1)) :
    withRetry fn (some cfg) defaults =
      withRetryGo fn cfg (m + 1) (cfg.delay.getD defaults.delay)
        (cfg.type.getD defaults.type) (retriableCodes cfg defaults) 0 (m + 1) := by
  simp only [withRetry, hcount]

/-- C2 (amended): with no retry policy or `count = 0` the wrapped action
runs exactly once and its outcome is propagated unchanged; with
`count = n ≥ 1` the action runs at most `n + 1` times, sequentially; if
the invocations before index `k` (0-based) fail retriably and the one at
index `k` succeeds, exactly `k + 1` invocations occur and that success is
returned; if all `n + 1` invocations fail and every failure is retriable
(no non-retriable `HttpError`, which would abort without the exhaustion
hook), the last error is re-raised after `onRetryExhausted` fires — as
the final hook invocation — with the last error, `n + 1` total attempts,
and the policy. -/
theorem withRetry_spec {T : Type} (fn : Nat → Except ScrapeError T)
    (defaults : RetryDefaults) (cfg : RetryConfig) (n : Nat)
    (hcount : cfg.count = some n) (hn : 1 ≤ n) :
    withRetry fn none defaults = ⟨fn 0, 1, []⟩ ∧
    (∀ cfg0 : RetryConfig, cfg0.count = none ∨ cfg0.count = some 0 →
      withRetry fn (some cfg0) defaults = ⟨fn 0, 1, []⟩) ∧
    (withRetry fn (some cfg) defaults).invocations ≤ n + 1 ∧
    (∀ k v, k ≤ n → fn k = .ok v →
      (∀ j < k, ∃ e, fn j = .error e ∧
        isNonRetriable e (retriableCodes cfg defaults) = false) →
      (withRetry fn (some cfg) defaults).result = .ok v ∧
      (withRetry fn (some cfg) defaults).invocations = k + 1) ∧
    (∀ err : Nat → ScrapeError,
      (∀ j ≤ n, fn j = .error (err j) ∧
        isNonRetriable (err j) (retriableCodes cfg defaults) = false) →
      (withRetry fn (some cfg) defaults).result = .error (err n) ∧
      (withRetry fn (some cfg) defaults).invocations = n + 1 ∧
      (withRetry fn (some cfg) defaults).events.getLast? =
        some (.retryExhausted (err n) (n + 1) cfg)) := by
  obtain ⟨m, rfl⟩ : ∃ m, n = m + 1 := ⟨n - 1, by omega⟩
  have hw := withRetry_count_pos fn defaults cfg m hcount
  refine ⟨rfl, ?_, ?_, ?_, ?_⟩
  · rintro cfg0 (h | h) <;> simp [withRetry, h]
  · rw [hw]
    have := withRetryGo_invocations_le fn cfg (m + 1) (cfg.delay.getD defaults.delay)
      (cfg.type.getD defaults.type) (retriableCodes cfg defaults) (m + 1) 0
    omega
  · intro k v hk hok hfail
    rw [hw]
    exact withRetryGo_success fn cfg (m + 1) (cfg.delay.getD defaults.delay)
      (cfg.type.getD defaults.type) (retriableCodes cfg defaults) k v hok hfail
      (m + 1) 0 (by omega) (by omega)
  · intro err herr
    rw [hw]
    have hx := withRetryGo_exhaust fn cfg (m + 1) (cfg.delay.getD defaults.delay)
      (cfg.type.getD defaults.type) (retriableCodes cfg defaults) err (m + 1) 0
      (fun j hj1 hj2 => herr j (by omega))
    rw [hx]
    refine ⟨by simp, by simp, by simp [List.getLast?_concat]⟩

/-- C2 counterexample: with `count = 1`, both allowed invocations fail
(the second with a 404 `HttpError` while only 500 is retriable); the last
error is re-raised after 2 invocations, yet no `onRetryExhausted` event
fires — the only hook invocation is the `onRetryAttempt` after the first
failure. -/
theorem withRetry_spec_counterexample :
    mixedFailFn 0 = .error (.generic "boom") ∧
    mixedFailFn 1 = .error (.http "HTTP error 404" 404) ∧
    withRetry mixedFailFn (some oneRetryCfg) sampleDefaults =
      ⟨.error (.http "HTTP error 404" 404), 2,
        [.retryAttempt (.generic "boom") 1 2 5 oneRetryCfg]⟩ :=
  ⟨rfl, rfl, rfl⟩

/-- Witness for C2: an action that fails once retriably and then
succeeds, under a `count = 1` policy, is invoked exactly twice and its
success is returned. -/
theorem withRetry_spec_witness :
    (withRetry succeedSecondFn (some oneRetryCfg) sampleDefaults).result = .ok 42 ∧
    (withRetry succeedSecondFn (some oneRetryCfg) sampleDefaults).invocations = 2 :=
  (withRetry_spec succeedSecondFn sampleDefaults oneRetryCfg 1 rfl (by omega)).2.2.2.1
    1 42 (by omega) rfl
    (by
      intro j hj
      have hj0 : j = 0 := by omega
      subst hj0
      exact ⟨.generic "first failure", rfl, rfl⟩)

/-- C5: inside the retry wrapper, when the invocations before index `k`
fail retriably and the one at index `k` fails with an `HttpError` whose
status is not in the configured retriable set, that error is re-raised
after exactly `k + 1` invocations — consuming none of the remaining
retries — and no `onRetryExhausted` event ever fires. -/
theorem withRetry_nonretriable_spec {T : Type} (fn : Nat → Except ScrapeError T)
    (defaults : RetryDefaults) (cfg : RetryConfig) (n : Nat)
    (hcount : cfg.count = some n) (hn : 1 ≤ n)
    (k : Nat) (msg : String) (s : Nat) (hk : k ≤ n)
    (hfail : ∀ j < k, ∃ e, fn j = .error e ∧
      isNonRetriable e (retriableCodes cfg defaults) = false)
    (hhttp : fn k = .error (.http msg s))
    (hs : (retriableCodes cfg defaults).contains s = false) :
    (withRetry fn (some cfg) defaults).result = .error (.http msg s) ∧
    (withRetry fn (some cfg) defaults).invocations = k + 1 ∧
    ((withRetry fn (some cfg) defaults).events.all fun ev => !ev.isExhausted) = true := by
  obtain ⟨m, rfl⟩ : ∃ m, n = m + 1 := ⟨n - 1, by omega⟩
  rw [withRetry_count_pos fn defaults cfg m hcount]
  exact withRetryGo_abort fn cfg (m + 1) (cfg.delay.getD defaults.delay)
    (cfg.type.getD defaults.type) (retriableCodes cfg defaults) k msg s hhttp hs hfail
    (m + 1) 0 (by omega) (by omega)

/-- Witness for C5: an action failing at once with a 404 `HttpError`
under a `count = 1` policy whose retriable set is `[500]` is invoked only
once, the error is re-raised, and no exhaustion event fires. -/
theorem withRetry_nonretriable_spec_witness :
    (withRetry alwaysHttp404 (some oneRetryCfg) sampleDefaults).result =
      .error (.http "HTTP error 404" 404) ∧
    (withRetry alwaysHttp404 (some oneRetryCfg) sampleDefaults).invocations = 1 ∧
    ((withRetry alwaysHttp404 (some oneRetryCfg) sampleDefaults).events.all
      fun ev => !ev.isExhausted) = true :=
  withRetry_nonretriable_spec alwaysHttp404 sampleDefaults oneRetryCfg 1 rfl
    (by omega) 0 "HTTP error 404" 404 (by omega)
    (fun j hj => absurd hj (Nat.not_lt_zero j)) rfl rfl

/-- When no custom retrieval function is configured, `executeMechanism`
for the custom mechanism fails with the `customFetchNotProvided`
configuration error (a plain `Error`, not an `HttpError`). -/
theorem executeMechanism_custom_noFn (env : MechEnv) (h : env.customFn = none) :
    executeMechanism env .custom = .error (.generic locales.customFetchNotProvided) := by
  simp [executeMechanism, executeCustomMechanism, h]

/-- C7 (amended): with the custom mechanism and no caller-supplied
retrieval function, every attempt fails with the `customFetchNotProvided`
configuration error; with no retry policy or `count = 0` it is surfaced
immediately after a single invocation; but because it is a plain error
rather than a status-classified one, a retry policy with `count = n ≥ 1`
does retry it — it is surfaced only after `n + 1` failing invocations,
with `onRetryExhausted` fired last. -/
theorem executeStrategy_noCustomFn_spec (envs : Nat → MechEnv)
    (defaults : RetryDefaults) (hnofn : ∀ a, (envs a).customFn = none) :
    executeStrategy envs .custom none defaults =
      ⟨.error (.generic locales.customFetchNotProvided), 1, []⟩ ∧
    (∀ cfg : RetryConfig, cfg.count = none ∨ cfg.count = some 0 →
      executeStrategy envs .custom (some cfg) defaults =
        ⟨.error (.generic locales.customFetchNotProvided), 1, []⟩) ∧
    (∀ cfg : RetryConfig, ∀ n, cfg.count = some n → 1 ≤ n →
      (executeStrategy envs .custom (some cfg) defaults).result =
        .error (.generic locales.customFetchNotProvided) ∧
      (executeStrategy envs .custom (some cfg) defaults).invocations = n + 1 ∧
      (executeStrategy envs .custom (some cfg) defaults).events.getLast? =
        some (.retryExhausted (.generic locales.customFetchNotProvided)
          (n + 1) cfg)) := by
  have hexec : ∀ a, executeMechanism (envs a) .custom =
      .error (.generic locales.customFetchNotProvided) :=
    fun a => executeMechanism_custom_noFn (envs a) (hnofn a)
  refine ⟨?_, ?_, ?_⟩
  · show withRetry _ none defaults = _
    simp [withRetry, hexec 0]
  · rintro cfg (h | h) <;>
      (show withRetry _ (some cfg) defaults = _) <;>
      simp [withRetry, h, hexec 0]
  · intro cfg n hcount hn
    obtain ⟨m, rfl⟩ : ∃ m, n = m + 1 := ⟨n - 1, by omega⟩
    have hw : executeStrategy envs .custom (some cfg) defaults =
        withRetryGo (fun attempt => executeMechanism (envs attempt) .custom) cfg
          (m + 1) (cfg.delay.getD defaults.delay) (cfg.type.getD defaults.type)
          (retriableCodes cfg defaults) 0 (m + 1) :=
      withRetry_count_pos (fun attempt => executeMechanism (envs attempt) .custom)
        defaults cfg m hcount
    have hx := withRetryGo_exhaust (fun attempt => executeMechanism (envs attempt) .custom)
      cfg (m + 1) (cfg.delay.getD defaults.delay) (cfg.type.getD defaults.type)
      (retriableCodes cfg defaults)
      (fun _ => .generic locales.customFetchNotProvided) (m + 1) 0
      (fun j hj1 hj2 => ⟨hexec j, rfl⟩)
    rw [hw, hx]
    refine ⟨by simp, by simp, by simp [List.getLast?_concat]⟩

/-- C7 counterexample: with a `count = 1` retry policy, the
missing-custom-function configuration error is retried — the mechanism
executor is invoked twice, an `onRetryAttempt` hook fires in between and
`onRetryExhausted` fires at the end — rather than being surfaced
immediately without retrying. -/
theorem executeStrategy_noCustomFn_counterexample :
    executeStrategy (fun _ => noCustomFnEnv) .custom (some oneRetryCfg) sampleDefaults =
      ⟨.error (.generic locales.customFetchNotProvided), 2,
        [.retryAttempt (.generic locales.customFetchNotProvided) 1 2 5 oneRetryCfg,
         .retryExhausted (.generic locales.customFetchNotProvided) 2 oneRetryCfg]⟩ :=
  rfl

/-- Witness for C7 (amended): concrete evaluation with a `count = 1`
policy — the configuration error is surfaced after 2 invocations. -/
theorem executeStrategy_noCustomFn_spec_witness :
    (executeStrategy (fun _ => noCustomFnEnv) .custom (some oneRetryCfg)
      sampleDefaults).result = .error (.generic locales.customFetchNotProvided) ∧
    (executeStrategy (fun _ => noCustomFnEnv) .custom (some oneRetryCfg)
      sampleDefaults).invocations = 2 :=
  ⟨((executeStrategy_noCustomFn_spec (fun _ => noCustomFnEnv) sampleDefaults
      (fun _ => rfl)).2.2 oneRetryCfg 1 rfl (by omega)).1,
   ((executeStrategy_noCustomFn_spec (fun _ => noCustomFnEnv) sampleDefaults
      (fun _ => rfl)).2.2 oneRetryCfg 1 rfl (by omega)).2.1⟩

/-- If the strategies before index `k` fail and the one at index `k`
succeeds, the cascade loop stops right there: `k + 1 - i` executions from
index `i` on, and `k`'s success is returned. -/
theorem scrapeLoop_success {R : Type} (exec : Nat → Except ScrapeError R)
    (all : List ScrapeStrategy) (k : Nat) (v : R)
    (hok : exec k = .ok v) (hk : k < all.length)
    (hfail : ∀ j < k, ∃ e, exec j = .error e) :
    ∀ rest i, i + rest.length = all.length → i ≤ k →
      (scrapeLoop exec all i rest).result = .ok v ∧
      (scrapeLoop exec all i rest).executorCalls = k - i + 1 := by
  intro rest
  induction rest with
  | nil =>
    intro i h1 h2
    exfalso
    simp only [List.length_nil] at h1
    omega
  | cons s rest ih =>
    intro i h1 h2
    rcases eq_or_lt_of_le h2 with heq | hlt
    · subst heq
      simp [scrapeLoop, hok]
    · obtain ⟨e, he⟩ := hfail i hlt
      have hne : ¬ i = all.length - 1 := by
        simp only [List.length_cons] at h1
        omega
      have hrec := ih (i + 1) (by simp only [List.length_cons] at h1 ⊢; omega)
        (by omega)
      simp only [scrapeLoop, he]
      rw [if_neg hne]
      refine ⟨hrec.1, ?_⟩
      show (scrapeLoop exec all (i + 1) rest).executorCalls + 1 = k - i + 1
      have h3 := hrec.2
      omega

/-- C1: with an absent or empty strategy list, `scrape` fails at once
with the `noStrategiesProvided` configuration error and performs zero
strategy executions (so no mechanism executor is ever invoked);
otherwise, when the strategies before index `k` fail and the one at
index `k` succeeds, the strategies are tried in declared order, the
`k`-th strategy's result is returned, and exactly `k + 1` strategy
executions occur — no later strategy is attempted. -/
theorem scrape_spec {R : Type} (exec : Nat → Except ScrapeError R) :
    scrape exec none = ⟨.error (.generic locales.noStrategiesProvided), 0, []⟩ ∧
    scrape exec (some []) = ⟨.error (.generic locales.noStrategiesProvided), 0, []⟩ ∧
    (∀ all : List ScrapeStrategy, ∀ k v, k < all.length → exec k = .ok v →
      (∀ j < k, ∃ e, exec j = .error e) →
      (scrape exec (some all)).result = .ok v ∧
      (scrape exec (some all)).executorCalls = k + 1) := by
  refine ⟨rfl, rfl, ?_⟩
  intro all k v hk hok hfail
  have hlen : ¬ all.length = 0 := by omega
  have h := scrapeLoop_success exec all k v hok hk hfail all 0 (by omega) (by omega)
  simp only [scrape]
  rw [if_neg hlen]
  exact ⟨h.1, by rw [h.2]; omega⟩

/-- Witness for C1: over two strategies where the first fails and the
second succeeds, the second's result is returned after exactly two
strategy executions. -/
theorem scrape_spec_witness :
    (scrape (fun j => if j = 0 then .error (.generic "s0 failed") else .ok 7)
      (some [⟨.fetch, none⟩, ⟨.browser, none⟩])).result = .ok 7 ∧
    (scrape (fun j => if j = 0 then .error (.generic "s0 failed") else .ok 7)
      (some [⟨.fetch, none⟩, ⟨.browser, none⟩])).executorCalls = 2 :=
  (scrape_spec (fun j => if j = 0 then .error (.generic "s0 failed") else .ok 7)).2.2
    [⟨.fetch, none⟩, ⟨.browser, none⟩] 1 7 (by decide) rfl
    (by
      intro j hj
      have hj0 : j = 0 := by omega
      subst hj0
      exact ⟨.generic "s0 failed", rfl⟩)

/-- One unfolding step of the cascade loop at a failing, non-final
index. -/
theorem scrapeLoop_cons_error {R : Type} (exec : Nat → Except ScrapeError R)
    (all : List ScrapeStrategy) (i : Nat) (s : ScrapeStrategy)
    (rest : List ScrapeStrategy) (e : ScrapeError)
    (he : exec i = .error e) (hne : ¬ i = all.length - 1) :
    scrapeLoop exec all i (s :: rest) =
      ⟨(scrapeLoop exec all (i + 1) rest).result,
        (scrapeLoop exec all (i + 1) rest).executorCalls + 1,
        .strategyFailed e s i all.length ::
          (scrapeLoop exec all (i + 1) rest).events⟩ := by
  simp only [scrapeLoop, he]
  rw [if_neg hne]

/-- When every strategy from index `i` on fails, the cascade loop walks
the whole suffix, fires one `onStrategyFailed` per index in order, fires
`onAllStrategiesFailed` last, and re-raises the final strategy's error. -/
theorem scrapeLoop_allFail {R : Type} (exec : Nat → Except ScrapeError R)
    (all : List ScrapeStrategy) (err : Nat → ScrapeError)
    (herr : ∀ j < all.length, exec j = .error (err j)) :
    ∀ rest i, all.drop i = rest → rest ≠ [] →
      scrapeLoop exec all i rest =
        ⟨.error (err (all.length - 1)), rest.length,
          ((List.range' i rest.length).map fun j =>
            .strategyFailed (err j) (all.getD j defaultStrategy) j all.length) ++
          [.allStrategiesFailed (err (all.length - 1)) all all.length]⟩ := by
  intro rest
  induction rest with
  | nil => intro i _ hne; exact absurd rfl hne
  | cons s rest ih =>
    intro i hdrop hne
    have hlen : i + (s :: rest).length = all.length := by
      have h0 := congrArg List.length hdrop
      simp only [List.length_drop, List.length_cons] at h0 ⊢
      omega
    have hi : i < all.length := by
      simp only [List.length_cons] at hlen
      omega
    have hs : s = all.getD i defaultStrategy := by
      have h1 : all.drop i = all.get ⟨i, hi⟩ :: all.drop (i + 1) :=
        List.drop_eq_getElem_cons hi
      rw [hdrop] at h1
      have h2 : s = all.get ⟨i, hi⟩ := (List.cons.injEq _ _ _ _).mp h1 |>.1
      rw [h2, List.getD_eq_getElem?_getD, List.getElem?_eq_getElem hi]
      rfl
    have he := herr i hi
    cases rest with
    | nil =>
      have hilast : i = all.length - 1 := by
        simp only [List.length_cons, List.length_nil] at hlen
        omega
      simp only [scrapeLoop, he]
      rw [if_pos hilast, ← hilast]
      simp only [List.length_cons, List.length_nil, Nat.zero_add, List.range'_one,
        List.map_cons, List.map_nil, List.cons_append, List.nil_append]
      rw [← hs]
    | cons s2 rest2 =>
      have hne2 : ¬ i = all.length - 1 := by
        simp only [List.length_cons] at hlen
        omega
      have hdrop2 : all.drop (i + 1) = s2 :: rest2 := by
        rw [← List.tail_drop, hdrop]
        rfl
      have hrec := ih (i + 1) hdrop2 (by simp)
      rw [scrapeLoop_cons_error exec all i s (s2 :: rest2) (err i) he hne2, hrec]
      simp only [ScrapeOutcome.mk.injEq]
      refine ⟨trivial, by simp, ?_⟩
      simp only [List.length_cons, List.range'_succ, List.map_cons, List.cons_append]
      rw [← hs]

/-- C4: when every strategy of a non-empty list fails, `scrape` performs
one execution per strategy in declared order, fires `onStrategyFailed`
for each with the error, the strategy, its index and the total count,
then fires `onAllStrategiesFailed` with the last error, the full list and
an attempt count equal to the list length, and re-raises exactly the last
strategy's error as the terminal failure. -/
theorem scrape_allFail_spec {R : Type} (exec : Nat → Except ScrapeError R)
    (all : List ScrapeStrategy) (err : Nat → ScrapeError)
    (hne : all ≠ [])
    (herr : ∀ j < all.length, exec j = .error (err j)) :
    scrape exec (some all) =
      ⟨.error (err (all.length - 1)), all.length,
        ((List.range all.length).map fun j =>
          .strategyFailed (err j) (all.getD j defaultStrategy) j all.length) ++
        [.allStrategiesFailed (err (all.length - 1)) all all.length]⟩ := by
  have hlen : ¬ all.length = 0 := by
    simpa [List.length_eq_zero] using hne
  have h := scrapeLoop_allFail exec all err herr all 0 (by simp) hne
  simp only [scrape]
  rw [if_neg hlen, h, List.range_eq_range']

/-- Witness for C4: two strategies that both fail — the second's error is
surfaced, both `onStrategyFailed` events fire in order, and
`onAllStrategiesFailed` fires with the full list and count 2. -/
theorem scrape_allFail_spec_witness :
    scrape (R := Unit) (fun j => .error (.generic (toString j)))
      (some [⟨.fetch, none⟩, ⟨.browser, none⟩]) =
      ⟨.error (.generic "1"), 2,
        [.strategyFailed (.generic "0") ⟨.fetch, none⟩ 0 2,
         .strategyFailed (.generic "1") ⟨.browser, none⟩ 1 2,
         .allStrategiesFailed (.generic "1") [⟨.fetch, none⟩, ⟨.browser, none⟩] 2]⟩ := by
  have h := scrape_allFail_spec (R := Unit)
    (fun j => .error (.generic (toString j)))
    [⟨.fetch, none⟩, ⟨.browser, none⟩]
    (fun j => .generic (toString j)) (by simp)
    (fun j _ => rfl)
  rw [h]
  rfl

/-- C6: every failing browser-mechanism execution (failed page creation
or navigation, missing navigation response, or validation failure) closes
its context before the error propagates; every successful one leaves the
context open and instead hands the caller a `cleanup` operation that
closes it. -/
theorem executeBrowserMechanism_spec (env : BrowserEnv)
    (validate : Option (BrowserResponse → Bool)) :
    (∀ e, (executeBrowserMechanism env validate).result = .error e →
      (executeBrowserMechanism env validate).contextClosedByExecutor = true) ∧
    (∀ res, (executeBrowserMechanism env validate).result = .ok res →
      (executeBrowserMechanism env validate).contextClosedByExecutor = false ∧
      ∀ ctx, (res.cleanup ctx).closed = true) := by
  obtain ⟨cp, gt⟩ := env
  cases cp with
  | error e0 =>
    refine ⟨fun e h => rfl, fun res h => ?_⟩
    exact absurd h (by simp [executeBrowserMechanism])
  | ok page =>
    cases gt with
    | error e0 =>
      refine ⟨fun e h => rfl, fun res h => ?_⟩
      exact absurd h (by simp [executeBrowserMechanism])
    | ok oresp =>
      cases oresp with
      | none =>
        refine ⟨fun e h => rfl, fun res h => ?_⟩
        exact absurd h (by simp [executeBrowserMechanism])
      | some resp =>
        cases validate with
        | none =>
          refine ⟨?_, ?_⟩
          · intro e h
            exact absurd h (by simp [executeBrowserMechanism])
          · intro res h
            have h' : Except.ok (ε := ScrapeError)
                (⟨page, resp, closeContext⟩ : ScrapeResultBrowser) = .ok res := h
            injection h' with h2
            subst h2
            exact ⟨rfl, fun ctx => rfl⟩
        | some p =>
          by_cases hp : p resp = true
          · refine ⟨?_, ?_⟩
            · intro e h
              exact absurd h (by simp [executeBrowserMechanism, hp])
            · intro res h
              have h' : Except.ok (ε := ScrapeError)
                  (⟨page, resp, closeContext⟩ : ScrapeResultBrowser) = .ok res := by
                rw [← h]
                simp [executeBrowserMechanism, hp]
              injection h' with h2
              subst h2
              exact ⟨by simp [executeBrowserMechanism, hp], fun ctx => rfl⟩
          · refine ⟨?_, ?_⟩
            · intro e h
              simp [executeBrowserMechanism, hp]
            · intro res h
              exact absurd h (by simp [executeBrowserMechanism, hp])

/-- Witness for C6: a validation-failing execution reports the context
closed; a successful execution leaves it open and its `cleanup` closes
the context. -/
theorem executeBrowserMechanism_spec_witness :
    (executeBrowserMechanism ⟨.ok ⟨0⟩, .ok (some ⟨200⟩)⟩
      (some fun _ => false)).contextClosedByExecutor = true ∧
    ((executeBrowserMechanism ⟨.ok ⟨0⟩, .ok (some ⟨200⟩)⟩
        none).contextClosedByExecutor = false ∧
      ∀ ctx, (ScrapeResultBrowser.cleanup ⟨⟨0⟩, ⟨200⟩, closeContext⟩ ctx).closed =
        true) :=
  ⟨(executeBrowserMechanism_spec ⟨.ok ⟨0⟩, .ok (some ⟨200⟩)⟩ (some fun _ => false)).1
      (.generic locales.responseValidationFailed) rfl,
    (executeBrowserMechanism_spec ⟨.ok ⟨0⟩, .ok (some ⟨200⟩)⟩ none).2
      ⟨⟨0⟩, ⟨200⟩, closeContext⟩ rfl⟩

/-- C8: the custom executor raises the `customFetchNoResponse` failure if
and only if the caller-supplied function returns `null` or `undefined`;
any other returned value — including the falsy primitives `false`, `0`
and `""` — is a successful payload subject only to the configured
validator. -/
theorem executeCustomMechanism_spec (v : JsValue)
    (validate : Option (JsValue → Bool)) :
    (executeCustomMechanism (some (.ok v)) validate =
        .error (.generic locales.customFetchNoResponse) ↔
      v = .null ∨ v = .undefined) ∧
    (v ≠ .null → v ≠ .undefined →
      executeCustomMechanism (some (.ok v)) validate =
        match validate with
        | none => .ok v
        | some p =>
          if p v then .ok v
          else .error (.generic locales.responseValidationFailed)) := by
  constructor
  · constructor
    · intro h
      by_contra hc
      push_neg at hc
      obtain ⟨h1, h2⟩ := hc
      have hcond : ¬ (v = JsValue.null ∨ v = JsValue.undefined) := by tauto
      simp only [executeCustomMechanism] at h
      rw [if_neg hcond] at h
      cases validate with
      | none => simp at h
      | some p =>
        dsimp only at h
        by_cases hp : p v = true
        · rw [if_pos hp] at h
          simp at h
        · rw [if_neg hp] at h
          simp [locales] at h
          exact absurd h (by decide)
    · rintro (rfl | rfl) <;> simp [executeCustomMechanism]
  · intro h1 h2
    have hcond : ¬ (v = JsValue.null ∨ v = JsValue.undefined) := by tauto
    simp only [executeCustomMechanism]
    rw [if_neg hcond]
    cases validate with
    | none => rfl
    | some p => rfl

/-- Witness for C8: the falsy payload `false` is accepted as a success
with no validator, and `null` yields the `customFetchNoResponse`
failure. -/
theorem executeCustomMechanism_spec_witness :
    executeCustomMechanism (some (.ok (.bool false))) none = .ok (.bool false) ∧
    executeCustomMechanism (some (.ok .null)) none =
      .error (.generic locales.customFetchNoResponse) :=
  ⟨(executeCustomMechanism_spec (.bool false) none).2
      (by decide) (by decide),
    (executeCustomMechanism_spec .null none).1.mpr (Or.inl rfl)⟩

/-- C10: every fetch- or browser-mechanism result that `executeMechanism`
returns carries a 2xx status; when the transport (resp. navigation)
yields a response and the configured validator (if any) accepts it but
its status is outside 200–299, the attempt fails with the
status-carrying `HttpError`; the custom mechanism undergoes no status
check — any successful custom payload passes through unchanged. -/
theorem executeMechanism_status_spec (env : MechEnv) :
    (∀ r, executeMechanism env .fetch = .ok (.fetch r) →
      200 ≤ r.status ∧ r.status < 300) ∧
    (∀ r, executeMechanism env .browser = .ok (.browser r) →
      200 ≤ r.response.status ∧ r.response.status < 300) ∧
    (∀ resp, env.fetchEnv.response = .ok (some resp) →
      (env.validateFetch = none ∨
        ∃ p, env.validateFetch = some p ∧ p resp = true) →
      resp.status < 200 ∨ 300 ≤ resp.status →
      executeMechanism env .fetch =
        .error (.http ("HTTP error " ++ toString resp.status) resp.status)) ∧
    (∀ pg resp, env.browserEnv.createPage = .ok pg →
      env.browserEnv.goto = .ok (some resp) →
      (env.validateBrowser = none ∨
        ∃ p, env.validateBrowser = some p ∧ p resp = true) →
      resp.status < 200 ∨ 300 ≤ resp.status →
      executeMechanism env .browser =
        .error (.http ("HTTP error " ++ toString resp.status) resp.status)) ∧
    (∀ v, executeCustomMechanism env.customFn env.validateCustom = .ok v →
      executeMechanism env .custom = .ok (.custom v)) := by
  refine ⟨?_, ?_, ?_, ?_, ?_⟩
  · intro r h
    cases hfe : executeFetchMechanism env.fetchEnv env.validateFetch with
    | error e =>
      exfalso
      simp [executeMechanism, hfe] at h
    | ok fr =>
      by_cases hst : fr.status < 200 ∨ 300 ≤ fr.status
      · exfalso
        simp only [executeMechanism, hfe] at h
        rw [if_pos hst] at h
        simp at h
      · simp only [executeMechanism, hfe] at h
        rw [if_neg hst] at h
        injection h with h2
        injection h2 with h3
        subst h3
        omega
  · intro r h
    cases hbe : (executeBrowserMechanism env.browserEnv env.validateBrowser).result with
    | error e =>
      exfalso
      simp [executeMechanism, hbe] at h
    | ok br =>
      by_cases hst : br.response.status < 200 ∨ 300 ≤ br.response.status
      · exfalso
        simp only [executeMechanism, hbe] at h
        rw [if_pos hst] at h
        simp at h
      · simp only [executeMechanism, hbe] at h
        rw [if_neg hst] at h
        injection h with h2
        injection h2 with h3
        subst h3
        omega
  · intro resp hresp hval hst
    have hfe : executeFetchMechanism env.fetchEnv env.validateFetch = .ok resp := by
      rcases hval with hnone | ⟨p, hp, hpv⟩
      · simp [executeFetchMechanism, hresp, hnone]
      · simp [executeFetchMechanism, hresp, hp, hpv]
    simp only [executeMechanism, hfe]
    rw [if_pos hst]
  · intro pg resp hcp hgoto hval hst
    have hbe : (executeBrowserMechanism env.browserEnv env.validateBrowser).result =
        .ok ⟨pg, resp, closeContext⟩ := by
      rcases hval with hnone | ⟨p, hp, hpv⟩
      · simp [executeBrowserMechanism, hcp, hgoto, hnone]
      · simp [executeBrowserMechanism, hcp, hgoto, hp, hpv]
    simp only [executeMechanism, hbe]
    rw [if_pos hst]
  · intro v h
    simp [executeMechanism, h]

/-- Witness for C10: a 404 transport response with no validator makes the
fetch attempt fail with `HttpError 404`, while the custom mechanism's
`false` payload passes through with no status check. -/
theorem executeMechanism_status_spec_witness :
    executeMechanism status404Env .fetch =
      .error (.http ("HTTP error " ++ toString 404) 404) ∧
    executeMechanism status404Env .custom = .ok (.custom (.bool false)) :=
  ⟨(executeMechanism_status_spec status404Env).2.2.1 ⟨404, "not found"⟩ rfl
      (Or.inl rfl) (by decide),
    (executeMechanism_status_spec status404Env).2.2.2.2 (.bool false) rfl⟩

end Skrobak
